import Mathlib

/-!
Formal model of octopilot's `repository/git.go`.

The file embeds the four pipeline operations of the git synchronization core
(`cloneGitRepository`, `switchBranch`, `commitChanges`, `pushChanges`) as pure
Lean functions.  The go-git library calls that the source performs
(`Worktree`, `Status`, `AddGlob`, `Commit`, `Reference`, `SetReference`,
`Checkout`, `PlainCloneContext`, `PushContext`) are external to the
repository; their outcomes are supplied by an explicit environment record
`Env`, and their effects on the repository are tracked in a `RepoState`
record together with a trace of `Event`s, so that ordering properties
(token fetched before the network call, reference stored before checkout)
are visible in the model.
-/

set_option autoImplicit false

/-- Commit identifiers (go-git `plumbing.Hash`), abstracted to naturals. -/
abbrev Hash := Nat

/-- Observable events of one pipeline operation, in the order the source
performs them. `cloneAttempted` and `pushAttempted` record the network call
with the credential it used; `refStored` records `Storer.SetReference`;
`staged` records a successful `AddGlob` with the files it added. -/
inductive Event where
  | tokenFetched : Event
  | cloneAttempted (url ref localPath token : String) : Event
  | refStored (name : String) (hash : Hash) : Event
  | checkoutAttempted (branch : String) (create : Bool) : Event
  | staged (pat : String) (files : List String) : Event
  | commitAttempted (message : String) : Event
  | commitCreated (hash : Hash) : Event
  | pushAttempted (refspec token : String) : Event
deriving Repr, DecidableEq

/-- Errors returned by the pipeline, one constructor per wrap site of
`git.go`; the payload is the formatted message (`fmt.Errorf` output, with
the wrapped error rendered at the end). -/
inductive GitError where
  | authError (msg : String)
  | cloneError (msg : String)
  | worktreeError (msg : String)
  | statusError (msg : String)
  | branchResolutionError (msg : String)
  | refStoreError (msg : String)
  | checkoutError (msg : String)
  | stageError (msg : String)
  | commitError (msg : String)
  | pushError (msg : String)
deriving Repr, DecidableEq

/-- State of a cloned repository: its reference store (`name` to commit
hash), the worktree root path, whether the worktree has uncommitted changes
(the `IsClean` bit of `Status`), the index contents added by staging, the
commit objects created locally, and the currently checked-out branch. -/
structure RepoState where
  refs : List (String × Hash)
  rootPath : String
  dirty : Bool
  staged : List String
  commits : List Hash
  checkedOut : Option String
deriving Repr, DecidableEq

/-- Environment supplying the outcomes of the external go-git and token
provider calls. `tokenQueue` holds the successive results of the token
provider (consumed one per call); each `Option String` field is `some e`
when the corresponding library call fails with error text `e`;
`stageResult` gives, per glob pattern, either the files `AddGlob` stages
(possibly none) or its error; `commitResult` gives the hash of the created
commit or the error of `Worktree.Commit`; `cloneResult` the repository
produced by `PlainCloneContext` or its error. -/
structure Env where
  tokenQueue : List (Except String String)
  worktreeErr : Option String
  statusErr : Option String
  stageResult : String → Except String (List String)
  commitResult : Except String Hash
  setRefErr : Option String
  checkoutErr : Option String
  cloneResult : Except String RepoState
  pushErr : Option String

/-- Modelled from the spec: the repository identity (owner/name pair plus a
free-form parameter map); the Go type lives outside the shown sources. The
parameter map is an association list looked up first-match, matching Go map
indexing (a Go map has at most one entry per key). -/
structure Repository where
  Owner : String
  Name : String
  Params : List (String × String)

/-- Modelled from the spec: `FullName` renders the identity as
`owner/name`. -/
def Repository.FullName (r : Repository) : String := r.Owner ++ "/" ++ r.Name

/-- Modelled from the spec: the opaque app/installation credential bundle
(`GitHubOptions`), defined outside the shown sources and only passed through
to the token provider. -/
structure GitHubOptions where
  config : String

/-- Modelled from the spec: the caller-supplied `UpdateOptions.Git`
configuration surface (ordered staging glob patterns, the stage-all-changed
switch, commit title/body/footer, author and committer identities). -/
structure GitOptions where
  StagePatterns : List String
  StageAllChanged : Bool
  CommitTitle : String
  CommitBody : String
  CommitFooter : String
  AuthorName : String
  AuthorEmail : String
  CommitterName : String
  CommitterEmail : String

/-- Modelled from the spec: `UpdateOptions`, of which `commitChanges` reads
only the `Git` part. -/
structure UpdateOptions where
  Git : GitOptions

/-- First-match lookup in an association list; models Go map indexing
(`repo.Params["branch"]`). -/
def paramsLookup (ps : List (String × String)) (k : String) : Option String :=
  match ps with
  | [] => none
  | (k1, v) :: rest => if k1 = k then some v else paramsLookup rest k

/-- Lookup in the reference store; models `Repository.Reference(name, true)`
which returns `ErrReferenceNotFound` (and a nil reference) when the name is
absent. -/
def lookupRef (refs : List (String × Hash)) (name : String) : Option Hash :=
  match refs with
  | [] => none
  | (n, h) :: rest => if n = name then some h else lookupRef rest name

/-- go-git `plumbing.NewBranchReferenceName`. -/
def newBranchReferenceName (b : String) : String := "refs/heads/" ++ b

/-- go-git `plumbing.NewRemoteReferenceName`. -/
def newRemoteReferenceName (remote b : String) : String :=
  "refs/remotes/" ++ remote ++ "/" ++ b

/-- Go `path/filepath.Base` for slash-separated paths: trailing slashes are
removed, then the last component is taken; the empty path gives `"."` and a
path of only slashes gives `"/"`. -/
def filepathBase (path : String) : String :=
  if path = "" then "."
  else
    let stripped := path.data.reverse.dropWhile (fun c => c = '/')
    if stripped = [] then "/"
    else String.mk ((stripped.takeWhile (fun c => c ≠ '/')).reverse)

/-- `git.go` line 19: the remote URL built from the repository identity. -/
def cloneUrl (repo : Repository) : String :=
  "https://github.worldpay.com/" ++ repo.FullName ++ ".git"

/-- Go `strings.TrimSpace`: the string with leading and trailing whitespace
characters removed. -/
def goTrimSpace (s : String) : String :=
  String.mk (((s.data.dropWhile Char.isWhitespace).reverse.dropWhile
    Char.isWhitespace).reverse)

/-- `git.go` lines 21-24: the reference to clone is `refs/heads/<branch>`
when the parameter map has a `branch` entry whose value is non-blank after
trimming whitespace, and the remote default `HEAD` otherwise. -/
def referenceToClone (repo : Repository) : String :=
  match paramsLookup repo.Params "branch" with
  | some b => if goTrimSpace b ≠ "" then "refs/heads/" ++ b else "HEAD"
  | none => "HEAD"

/-- Modelled from the spec: `githubClient` (the TokenProvider, defined
outside the shown sources) exchanges the credential bundle for an API
client handle and an ephemeral bearer token, and is re-invoked on every
call; we model each call as consuming the next outcome of the
environment's token queue. -/
def githubClient (env : Env) (opts : GitHubOptions) : Except String String × Env :=
  match env.tokenQueue with
  | [] => (Except.error "token provider exhausted", env)
  | r :: rest => (r, { env with tokenQueue := rest })

/-- `git.go` lines 18-56 (`cloneGitRepository`): build the URL and the
reference to clone, fetch a token, then run `PlainCloneContext` with basic
auth (fixed username, token as password). Returns the Go pair
`(*git.Repository, error)` as `Option RepoState × Option GitError`,
together with the advanced environment and the event trace. -/
def cloneGitRepository (env : Env) (repo : Repository) (localPath : String)
    (options : GitHubOptions) :
    (Option RepoState × Option GitError) × Env × List Event :=
  let url := cloneUrl repo
  let referenceName := referenceToClone repo
  match githubClient env options with
  | (Except.error e, env1) =>
    ((none, some (GitError.authError ("failed to create github client: " ++ e))),
      env1, [Event.tokenFetched])
  | (Except.ok token, env1) =>
    match env1.cloneResult with
    | Except.error e =>
      ((none, some (GitError.cloneError
          ("failed to clone git repository from " ++ url ++ " to " ++ localPath ++ ": " ++ e))),
        env1, [Event.tokenFetched, Event.cloneAttempted url referenceName localPath token])
    | Except.ok r =>
      ((some r, none), env1,
        [Event.tokenFetched, Event.cloneAttempted url referenceName localPath token])

/-- `git.go` lines 58-61. -/
structure switchBranchOptions where
  BranchName : String
  CreateBranch : Bool

/-- Rendering of the nil `*plumbing.Reference` that `git.go` line 80
interpolates into the branch-resolution error message: when
`Repository.Reference` fails it returns a nil reference, and Go's `fmt`
renders the nil receiver's panicking `String` method as a recovered-panic
marker. The only fact the development relies on is that this text does not
contain the branch name. -/
def nilReferenceString : String :=
  "%!s(PANIC=String method: runtime error: invalid memory address or nil pointer dereference)"

/-- go-git `plumbing.ErrReferenceNotFound`, the error returned by
`Repository.Reference` when the named reference is absent. -/
def referenceNotFoundMsg : String := "reference not found"

/-- `git.go` lines 63-102 (`switchBranch`): open the worktree; when
`CreateBranch` is false, resolve the remote-tracking reference
`refs/remotes/origin/<branch>`, pin a new local branch reference to its
hash and store it; then check out the local branch reference, creating it
when `CreateBranch` is true. -/
def switchBranch (env : Env) (repo : RepoState) (opts : switchBranchOptions) :
    Option GitError × RepoState × List Event :=
  match env.worktreeErr with
  | some e => (some (GitError.worktreeError ("failed to open worktree: " ++ e)), repo, [])
  | none =>
    let branchRefName := newBranchReferenceName opts.BranchName
    let pinned : Option GitError × RepoState × List Event :=
      if opts.CreateBranch then (none, repo, [])
      else
        match lookupRef repo.refs (newRemoteReferenceName "origin" opts.BranchName) with
        | none =>
          (some (GitError.branchResolutionError
              ("failed to get the reference for " ++ nilReferenceString ++ ": "
                ++ referenceNotFoundMsg)),
            repo, [])
        | some h =>
          match env.setRefErr with
          | some e =>
            (some (GitError.refStoreError
                ("failed to store the reference for branch " ++ opts.BranchName ++ ": " ++ e)),
              repo, [])
          | none =>
            (none, { repo with refs := (branchRefName, h) :: repo.refs },
              [Event.refStored branchRefName h])
    match pinned with
    | (some e, r, tr) => (some e, r, tr)
    | (none, r, tr) =>
      match env.checkoutErr with
      | some e =>
        (some (GitError.checkoutError
            ("failed to checkout the branch " ++ opts.BranchName ++ ": " ++ e)),
          r, tr ++ [Event.checkoutAttempted branchRefName opts.CreateBranch])
      | none =>
        (none, { r with checkedOut := some branchRefName },
          tr ++ [Event.checkoutAttempted branchRefName opts.CreateBranch])

/-- `git.go` lines 125-130: the staging loop. For each configured glob
pattern in order, `AddGlob` either stages its matching files (possibly
none) or fails, in which case the loop stops with a stage error naming the
pattern. -/
def stageLoop (env : Env) (pats : List String) (repo : RepoState) :
    Option GitError × RepoState × List Event :=
  match pats with
  | [] => (none, repo, [])
  | p :: rest =>
    match env.stageResult p with
    | Except.error e =>
      (some (GitError.stageError ("failed to stage files using pattern " ++ p ++ ": " ++ e)),
        repo, [])
    | Except.ok l =>
      let repo1 := { repo with staged := repo.staged ++ l }
      match stageLoop env rest repo1 with
      | (err, r2, tr) => (err, r2, Event.staged p l :: tr)

/-- The files a pattern stages in environment `env` (empty when `AddGlob`
fails on it). -/
def stagedFiles (env : Env) (p : String) : List String :=
  match env.stageResult p with
  | Except.ok l => l
  | Except.error _ => []

/-- `git.go` lines 133-142: the commit message is the title; then, when the
body has positive length, two newlines and the body; then, when the footer
has positive length, two newlines, the separator line, a newline and the
footer. -/
def commitMessage (g : GitOptions) : String :=
  let m := g.CommitTitle
  let m := if g.CommitBody.length > 0 then m ++ "\n\n" ++ g.CommitBody else m
  if g.CommitFooter.length > 0 then m ++ "\n\n-- \n" ++ g.CommitFooter else m

/-- `git.go` lines 104-168 (`commitChanges`): open the worktree, compute
status, return `(false, nil)` when clean; otherwise stage each configured
pattern in order, build the commit message and create the commit. Returns
the Go pair `(bool, error)` together with the updated repository state and
the event trace. -/
def commitChanges (env : Env) (repo : RepoState) (options : UpdateOptions) :
    (Bool × Option GitError) × RepoState × List Event :=
  match env.worktreeErr with
  | some e =>
    ((false, some (GitError.worktreeError ("failed to open worktree: " ++ e))), repo, [])
  | none =>
    match env.statusErr with
    | some e =>
      ((false, some (GitError.statusError ("failed to get the worktree status: " ++ e))),
        repo, [])
    | none =>
      if repo.dirty = false then ((false, none), repo, [])
      else
        match stageLoop env options.Git.StagePatterns repo with
        | (some err, r, tr) => ((false, some err), r, tr)
        | (none, r, tr) =>
          match env.commitResult with
          | Except.error e =>
            ((false, some (GitError.commitError ("failed to commit: " ++ e))), r,
              tr ++ [Event.commitAttempted (commitMessage options.Git)])
          | Except.ok h =>
            ((true, none),
              { r with dirty := false, staged := [], commits := r.commits ++ [h] },
              tr ++ [Event.commitAttempted (commitMessage options.Git),
                Event.commitCreated h])

/-- `git.go` lines 170-174. -/
structure pushOptions where
  GitHubOpts : GitHubOptions
  BranchName : String
  ForcePush : Bool

/-- `git.go` lines 185-190: the push refspec maps the local branch to the
identically named remote branch, with a leading force marker exactly when
`ForcePush` is set. -/
def pushRefSpec (branch : String) (force : Bool) : String :=
  let refSpec := "refs/heads/" ++ branch ++ ":refs/heads/" ++ branch
  if force then "+" ++ refSpec else refSpec

/-- `git.go` lines 176-220 (`pushChanges`): open the worktree, build the
refspec, fetch a fresh token, then run `PushContext` with basic auth. The
local repository state is returned untouched on every path. -/
def pushChanges (env : Env) (repo : RepoState) (opts : pushOptions) :
    Option GitError × RepoState × Env × List Event :=
  match env.worktreeErr with
  | some e =>
    (some (GitError.worktreeError ("failed to open worktree: " ++ e)), repo, env, [])
  | none =>
    let repoName := filepathBase repo.rootPath
    let refSpec := pushRefSpec opts.BranchName opts.ForcePush
    match githubClient env opts.GitHubOpts with
    | (Except.error e, env1) =>
      (some (GitError.authError ("failed to create github client: " ++ e)), repo, env1,
        [Event.tokenFetched])
    | (Except.ok token, env1) =>
      match env1.pushErr with
      | some e =>
        (some (GitError.pushError
            ("failed to push branch " ++ opts.BranchName ++ " to " ++ repoName ++ ": " ++ e)),
          repo, env1, [Event.tokenFetched, Event.pushAttempted refSpec token])
      | none =>
        (none, repo, env1, [Event.tokenFetched, Event.pushAttempted refSpec token])

/-- Fixture: a freshly cloned repository with a clean worktree, tracking a
single remote branch `origin/main`. -/
def repoClean : RepoState where
  refs := [("refs/remotes/origin/main", 5)]
  rootPath := "/tmp/work/my-repo"
  dirty := false
  staged := []
  commits := []
  checkedOut := none

/-- Fixture: the same repository with uncommitted worktree changes. -/
def repoDirty : RepoState := { repoClean with dirty := true }

/-- Fixture: an environment in which every external call succeeds. -/
def envOK : Env where
  tokenQueue := [Except.ok "token-one", Except.ok "token-two"]
  worktreeErr := none
  statusErr := none
  stageResult := fun _ => Except.ok []
  commitResult := Except.ok 7
  setRefErr := none
  checkoutErr := none
  cloneResult := Except.ok repoClean
  pushErr := none

/-- Fixture: commit options with title, body and footer all configured. -/
def gitOptionsTBF : GitOptions where
  StagePatterns := []
  StageAllChanged := false
  CommitTitle := "T"
  CommitBody := "B"
  CommitFooter := "F"
  AuthorName := "Alice"
  AuthorEmail := "alice@example.com"
  CommitterName := "Carol"
  CommitterEmail := "carol@example.com"

/-- Fixture: commit options with only a title. -/
def gitOptionsTitleOnly : GitOptions :=
  { gitOptionsTBF with CommitBody := "", CommitFooter := "" }

theorem strData_append (a b : String) : (a ++ b).data = a.data ++ b.data := rfl

theorem string_length_pos_iff (s : String) : 0 < s.length ↔ s ≠ "" := by
  obtain ⟨l⟩ := s
  cases l with
  | nil =>
    refine ⟨fun h => absurd h (by decide), fun h => absurd (by decide) h⟩
  | cons c cs =>
    refine ⟨fun _ hcontra => ?_, fun _ => Nat.succ_pos cs.length⟩
    exact List.noConfusion (congrArg String.data hcontra)

/-- C1: for every repository handle whose working tree is clean (and whose
worktree and status reads succeed), `commitChanges` returns the pair
`(false, nil)`, leaves the repository state unchanged (so it creates no
commit object and stages nothing) and performs no staging or commit event. -/
theorem commitChanges_clean_is_noop (env : Env) (repo : RepoState) (o : UpdateOptions)
    (hw : env.worktreeErr = none) (hs : env.statusErr = none)
    (hclean : repo.dirty = false) :
    commitChanges env repo o = ((false, none), repo, []) := by
  simp [commitChanges, hw, hs, hclean]

/-- Witness for C1 at a concrete clean repository. -/
theorem commitChanges_clean_is_noop_check :
    commitChanges envOK repoClean { Git := gitOptionsTBF } = ((false, none), repoClean, []) :=
  commitChanges_clean_is_noop envOK repoClean { Git := gitOptionsTBF } rfl rfl rfl

/-- C3: `switchBranch` with `CreateBranch = false` on a repository whose
reference store has no `origin/<branch>` remote-tracking reference fails
with a branch-resolution error, leaves the repository state unchanged and
attempts no checkout (the event trace is empty). -/
theorem switchBranch_missing_remote_branch (env : Env) (repo : RepoState)
    (opts : switchBranchOptions) (hw : env.worktreeErr = none)
    (hcb : opts.CreateBranch = false)
    (hmiss : lookupRef repo.refs (newRemoteReferenceName "origin" opts.BranchName) = none) :
    switchBranch env repo opts =
      (some (GitError.branchResolutionError
          ("failed to get the reference for " ++ nilReferenceString ++ ": "
            ++ referenceNotFoundMsg)),
        repo, []) := by
  simp [switchBranch, hw, hcb, hmiss]

/-- Witness for C3 at a concrete repository lacking `origin/feature-x`. -/
theorem switchBranch_missing_remote_branch_check :
    switchBranch envOK repoClean { BranchName := "feature-x", CreateBranch := false } =
      (some (GitError.branchResolutionError
          ("failed to get the reference for " ++ nilReferenceString ++ ": "
            ++ referenceNotFoundMsg)),
        repoClean, []) :=
  switchBranch_missing_remote_branch envOK repoClean
    { BranchName := "feature-x", CreateBranch := false } rfl rfl (by decide)

theorem stageLoop_trace_staged (env : Env) (pats : List String) :
    ∀ (repo : RepoState) (e : Event), e ∈ (stageLoop env pats repo).2.2 →
      ∃ p l, e = Event.staged p l := by
  induction pats with
  | nil => intro repo e he; simp [stageLoop] at he
  | cons p rest ih =>
    intro repo e he
    cases hsr : env.stageResult p with
    | error err => simp [stageLoop, hsr] at he
    | ok l =>
      rcases hrec : stageLoop env rest { repo with staged := repo.staged ++ l } with
        ⟨err2, r2, tr2⟩
      simp [stageLoop, hsr, hrec] at he
      rcases he with he | he
      · exact ⟨p, l, he⟩
      · have := ih { repo with staged := repo.staged ++ l } e
        rw [hrec] at this
        exact this he

theorem commitChanges_message_used (env : Env) (repo : RepoState) (o : UpdateOptions)
    (msg : String)
    (hm : Event.commitAttempted msg ∈ (commitChanges env repo o).2.2) :
    msg = commitMessage o.Git := by
  cases hw : env.worktreeErr with
  | some e => simp [commitChanges, hw] at hm
  | none =>
    cases hs : env.statusErr with
    | some e => simp [commitChanges, hw, hs] at hm
    | none =>
      cases hd : repo.dirty with
      | false => simp [commitChanges, hw, hs, hd] at hm
      | true =>
        rcases hsl : stageLoop env o.Git.StagePatterns repo with ⟨err, r, tr⟩
        have hst := stageLoop_trace_staged env o.Git.StagePatterns repo
        rw [hsl] at hst
        cases err with
        | some ge =>
          simp [commitChanges, hw, hs, hd, hsl] at hm
          obtain ⟨p, l, hpl⟩ := hst (Event.commitAttempted msg) hm
          exact Event.noConfusion hpl
        | none =>
          cases hc : env.commitResult with
          | error e =>
            simp [commitChanges, hw, hs, hd, hsl, hc] at hm
            rcases hm with hm | hm
            · obtain ⟨p, l, hpl⟩ := hst (Event.commitAttempted msg) hm
              exact Event.noConfusion hpl
            · exact hm
          | ok h =>
            simp [commitChanges, hw, hs, hd, hsl, hc] at hm
            rcases hm with hm | hm
            · obtain ⟨p, l, hpl⟩ := hst (Event.commitAttempted msg) hm
              exact Event.noConfusion hpl
            · exact hm

/-- C2: the commit message built by `commitChanges` is the exact
concatenation of the title, then (when the body is non-empty) two newlines
and the body, then (when the footer is non-empty) two newlines, the
separator line and a newline, and the footer, with no other normalization;
and every commit attempted by `commitChanges` carries exactly this
message. -/
theorem commitMessage_layout (g : GitOptions) :
    (g.CommitBody = "" → g.CommitFooter = "" → commitMessage g = g.CommitTitle) ∧
    (g.CommitBody ≠ "" → g.CommitFooter = "" →
      commitMessage g = g.CommitTitle ++ "\n\n" ++ g.CommitBody) ∧
    (g.CommitBody = "" → g.CommitFooter ≠ "" →
      commitMessage g = g.CommitTitle ++ "\n\n-- \n" ++ g.CommitFooter) ∧
    (g.CommitBody ≠ "" → g.CommitFooter ≠ "" →
      commitMessage g =
        g.CommitTitle ++ "\n\n" ++ g.CommitBody ++ "\n\n-- \n" ++ g.CommitFooter) ∧
    (∀ env repo msg, Event.commitAttempted msg ∈ (commitChanges env repo { Git := g }).2.2 →
      msg = commitMessage g) := by
  refine ⟨?_, ?_, ?_, ?_, ?_⟩
  · intro hb hf
    have hb2 : ¬ 0 < g.CommitBody.length := by
      rw [string_length_pos_iff]; simp [hb]
    have hf2 : ¬ 0 < g.CommitFooter.length := by
      rw [string_length_pos_iff]; simp [hf]
    simp [commitMessage, hb2, hf2]
  · intro hb hf
    have hb2 : 0 < g.CommitBody.length := (string_length_pos_iff _).mpr hb
    have hf2 : ¬ 0 < g.CommitFooter.length := by
      rw [string_length_pos_iff]; simp [hf]
    simp [commitMessage, hb2, hf2]
  · intro hb hf
    have hb2 : ¬ 0 < g.CommitBody.length := by
      rw [string_length_pos_iff]; simp [hb]
    have hf2 : 0 < g.CommitFooter.length := (string_length_pos_iff _).mpr hf
    simp [commitMessage, hb2, hf2]
  · intro hb hf
    have hb2 : 0 < g.CommitBody.length := (string_length_pos_iff _).mpr hb
    have hf2 : 0 < g.CommitFooter.length := (string_length_pos_iff _).mpr hf
    simp [commitMessage, hb2, hf2]
  · intro env repo msg hm
    exact commitChanges_message_used env repo { Git := g } msg hm

/-- Witness for C2: title `T`, body `B`, footer `F` yield exactly the
four-line message, and a title alone yields exactly the title. -/
theorem commitMessage_layout_check :
    commitMessage gitOptionsTBF = "T\n\nB\n\n-- \nF" ∧
    commitMessage gitOptionsTitleOnly = "T" := by
  constructor
  · have h := (commitMessage_layout gitOptionsTBF).2.2.2.1 (by decide) (by decide)
    rw [h]; rfl
  · have h := (commitMessage_layout gitOptionsTitleOnly).1 rfl rfl
    rw [h]; rfl

/-- Fixture: a repository identity carrying a non-blank branch parameter. -/
def repoWithBranch : Repository where
  Owner := "org"
  Name := "app"
  Params := [("branch", "main")]

/-- Fixture: a repository identity with no branch parameter. -/
def repoNoBranch : Repository where
  Owner := "org"
  Name := "app"
  Params := [("other", "x")]

/-- C4: `cloneGitRepository` resolves the reference to clone as
`refs/heads/<branch>` exactly when the identity's parameter map has a
`branch` entry whose value is non-blank, and as the remote default `HEAD`
otherwise; and every clone the function attempts uses exactly that
reference (and the deterministic URL and local path). -/
theorem cloneGitRepository_reference_resolution (repo : Repository) :
    (paramsLookup repo.Params "branch" = none → referenceToClone repo = "HEAD") ∧
    (∀ b, paramsLookup repo.Params "branch" = some b →
      (goTrimSpace b ≠ "" → referenceToClone repo = "refs/heads/" ++ b) ∧
      (goTrimSpace b = "" → referenceToClone repo = "HEAD")) ∧
    (∀ env localPath options u r lp tok,
      Event.cloneAttempted u r lp tok ∈ (cloneGitRepository env repo localPath options).2.2 →
      u = cloneUrl repo ∧ r = referenceToClone repo ∧ lp = localPath) := by
  refine ⟨?_, ?_, ?_⟩
  · intro h; simp [referenceToClone, h]
  · intro b h
    constructor
    · intro hb; simp [referenceToClone, h, hb]
    · intro hb; simp [referenceToClone, h, hb]
  · intro env localPath options u r lp tok hm
    cases hq : env.tokenQueue with
    | nil => simp [cloneGitRepository, githubClient, hq] at hm
    | cons t rest =>
      cases t with
      | error e => simp [cloneGitRepository, githubClient, hq] at hm
      | ok tk =>
        cases hc : env.cloneResult with
        | error e =>
          simp [cloneGitRepository, githubClient, hq, hc] at hm
          exact ⟨hm.1, hm.2.1, hm.2.2.1⟩
        | ok r2 =>
          simp [cloneGitRepository, githubClient, hq, hc] at hm
          exact ⟨hm.1, hm.2.1, hm.2.2.1⟩

/-- Witness for C4: a non-blank branch parameter yields
`refs/heads/main`, its absence yields `HEAD`. -/
theorem cloneGitRepository_reference_resolution_check :
    referenceToClone repoWithBranch = "refs/heads/main" ∧
    referenceToClone repoNoBranch = "HEAD" :=
  ⟨((cloneGitRepository_reference_resolution repoWithBranch).2.1 "main" (by decide)).1
      (by decide),
    (cloneGitRepository_reference_resolution repoNoBranch).1 (by decide)⟩

/-- C5: the push refspec maps the local branch to the identically named
remote branch; with `ForcePush = true` it carries the leading force marker,
with `ForcePush = false` it does not (it cannot be written as `+` followed
by anything); and every push the function attempts uses exactly this
refspec. -/
theorem pushChanges_refspec (b : String) :
    pushRefSpec b false = "refs/heads/" ++ b ++ ":refs/heads/" ++ b ∧
    pushRefSpec b true = "+" ++ pushRefSpec b false ∧
    (∀ s, pushRefSpec b false ≠ "+" ++ s) ∧
    (∀ env repo opts rs tok,
      Event.pushAttempted rs tok ∈ (pushChanges env repo opts).2.2.2 →
      rs = pushRefSpec opts.BranchName opts.ForcePush) := by
  refine ⟨rfl, rfl, ?_, ?_⟩
  · intro s hcontra
    have hd := congrArg String.data hcontra
    simp only [pushRefSpec, if_neg, Bool.false_eq_true, not_false_iff, ite_false,
      strData_append] at hd
    simp only [List.cons_append, List.nil_append, List.append_assoc] at hd
    injection hd with h1 h2
    exact absurd h1 (by decide)
  · intro env repo opts rs tok hm
    cases hw : env.worktreeErr with
    | some e => simp [pushChanges, hw] at hm
    | none =>
      cases hq : env.tokenQueue with
      | nil => simp [pushChanges, githubClient, hw, hq] at hm
      | cons t rest =>
        cases t with
        | error e => simp [pushChanges, githubClient, hw, hq] at hm
        | ok tk =>
          cases hp : env.pushErr with
          | some e =>
            simp [pushChanges, githubClient, hw, hq, hp] at hm
            exact hm.1
          | none =>
            simp [pushChanges, githubClient, hw, hq, hp] at hm
            exact hm.1

/-- Witness for C5 at the branch `feature-x`. -/
theorem pushChanges_refspec_check :
    pushRefSpec "feature-x" false = "refs/heads/feature-x:refs/heads/feature-x" ∧
    pushRefSpec "feature-x" true = "+refs/heads/feature-x:refs/heads/feature-x" ∧
    pushRefSpec "feature-x" false ≠ "+" ++ "refs/heads/feature-x:refs/heads/feature-x" := by
  refine ⟨?_, ?_, (pushChanges_refspec "feature-x").2.2.1 _⟩
  · rw [(pushChanges_refspec "feature-x").1]; rfl
  · rw [(pushChanges_refspec "feature-x").2.1, (pushChanges_refspec "feature-x").1]; rfl

theorem stageLoop_all_ok (env : Env) :
    ∀ (pats : List String) (repo : RepoState),
    (∀ p ∈ pats, ∃ l, env.stageResult p = Except.ok l) →
    stageLoop env pats repo =
      (none, { repo with staged := repo.staged ++ (pats.map (stagedFiles env)).flatten },
        pats.map (fun p => Event.staged p (stagedFiles env p))) := by
  intro pats
  induction pats with
  | nil => intro repo h; simp [stageLoop]
  | cons p rest ih =>
    intro repo h
    obtain ⟨l, hl⟩ := h p (by simp)
    have hrest : ∀ q ∈ rest, ∃ l2, env.stageResult q = Except.ok l2 :=
      fun q hq => h q (by simp [hq])
    have hr := ih { repo with staged := repo.staged ++ l } hrest
    simp [stageLoop, hl, hr, stagedFiles, List.append_assoc]

theorem stageLoop_first_fail (env : Env) :
    ∀ (pre : List String) (p : String) (post : List String) (repo : RepoState) (e : String),
    (∀ q ∈ pre, ∃ l, env.stageResult q = Except.ok l) →
    env.stageResult p = Except.error e →
    stageLoop env (pre ++ p :: post) repo =
      (some (GitError.stageError ("failed to stage files using pattern " ++ p ++ ": " ++ e)),
        { repo with staged := repo.staged ++ (pre.map (stagedFiles env)).flatten },
        pre.map (fun q => Event.staged q (stagedFiles env q))) := by
  intro pre
  induction pre with
  | nil => intro p post repo e h hp; simp [stageLoop, hp]
  | cons q rest ih =>
    intro p post repo e h hp
    obtain ⟨l, hl⟩ := h q (by simp)
    have hrest : ∀ q2 ∈ rest, ∃ l2, env.stageResult q2 = Except.ok l2 :=
      fun q2 hq2 => h q2 (by simp [hq2])
    have hr := ih p post { repo with staged := repo.staged ++ l } e hrest hp
    simp [stageLoop, hl, hr, stagedFiles, List.append_assoc]

/-- C6: during `commitChanges` on a dirty working tree, when every
configured pattern stages successfully the function reports no stage error
and the patterns appear in the trace in their configured order (a pattern
matching no files stages nothing and is not an error); when a pattern
fails, the function stops there with a stage error naming exactly that
pattern, having applied the preceding patterns in order. -/
theorem commitChanges_staging_behaviour (env : Env) (repo : RepoState) (g : GitOptions)
    (hw : env.worktreeErr = none) (hs : env.statusErr = none) (hd : repo.dirty = true) :
    ((∀ p ∈ g.StagePatterns, ∃ l, env.stageResult p = Except.ok l) →
      ∃ tail,
        (commitChanges env repo { Git := g }).2.2 =
          (g.StagePatterns.map fun p => Event.staged p (stagedFiles env p)) ++ tail ∧
        ∀ m, (commitChanges env repo { Git := g }).1.2 ≠ some (GitError.stageError m)) ∧
    (∀ p r, env.stageResult p = Except.ok [] →
      stageLoop env [p] r = (none, r, [Event.staged p []])) ∧
    (∀ pre p post e, g.StagePatterns = pre ++ p :: post →
      (∀ q ∈ pre, ∃ l, env.stageResult q = Except.ok l) →
      env.stageResult p = Except.error e →
      commitChanges env repo { Git := g } =
        ((false, some (GitError.stageError
            ("failed to stage files using pattern " ++ p ++ ": " ++ e))),
          { repo with staged := repo.staged ++ (pre.map (stagedFiles env)).flatten },
          pre.map fun q => Event.staged q (stagedFiles env q))) := by
  refine ⟨?_, ?_, ?_⟩
  · intro hall
    have hsl := stageLoop_all_ok env g.StagePatterns repo hall
    cases hc : env.commitResult with
    | error e =>
      refine ⟨[Event.commitAttempted (commitMessage g)], ?_, ?_⟩
      · simp [commitChanges, hw, hs, hd, hsl, hc]
      · intro m; simp [commitChanges, hw, hs, hd, hsl, hc]
    | ok h =>
      refine ⟨[Event.commitAttempted (commitMessage g), Event.commitCreated h], ?_, ?_⟩
      · simp [commitChanges, hw, hs, hd, hsl, hc]
      · intro m; simp [commitChanges, hw, hs, hd, hsl, hc]
  · intro p r hpr
    simp [stageLoop, hpr]
  · intro pre p post e hpats hpre hp
    have hsl := stageLoop_first_fail env pre p post repo e hpre hp
    simp [commitChanges, hw, hs, hd, hpats, hsl]

/-- Fixture: an environment whose `AddGlob` fails on the pattern `[` and
stages nothing for every other pattern. -/
def envStageFail : Env :=
  { envOK with stageResult := fun p =>
      if p = "[" then Except.error "bad pattern" else Except.ok [] }

/-- Fixture: commit options staging the pattern `*.md` and then the
malformed pattern `[`. -/
def gitOptionsStage : GitOptions :=
  { gitOptionsTBF with StagePatterns := ["*.md", "["] }

/-- Witness for C6: the first pattern is a no-op, the second fails with a
stage error naming it. -/
theorem commitChanges_staging_behaviour_check :
    commitChanges envStageFail repoDirty { Git := gitOptionsStage } =
      ((false, some (GitError.stageError
          ("failed to stage files using pattern " ++ "[" ++ ": " ++ "bad pattern"))),
        { repoDirty with staged := repoDirty.staged ++ ((["*.md"].map (stagedFiles envStageFail)).flatten) },
        ["*.md"].map fun q => Event.staged q (stagedFiles envStageFail q)) :=
  (commitChanges_staging_behaviour envStageFail repoDirty gitOptionsStage rfl rfl
      rfl).2.2 ["*.md"] "[" [] "bad pattern" rfl
    (by intro q hq
        simp at hq
        refine ⟨[], ?_⟩
        rw [hq]
        rfl)
    rfl

/-- C7: `switchBranch` with `CreateBranch = false` on a repository whose
remote-tracking reference `origin/<branch>` resolves to hash `h` creates
the local branch reference pinned to exactly `h`, stores it before the
checkout is attempted, and the checkout targets that local branch
reference. -/
theorem switchBranch_pins_remote_hash (env : Env) (repo : RepoState)
    (opts : switchBranchOptions) (h : Hash)
    (hw : env.worktreeErr = none) (hcb : opts.CreateBranch = false)
    (hset : env.setRefErr = none)
    (hhit : lookupRef repo.refs (newRemoteReferenceName "origin" opts.BranchName) = some h) :
    lookupRef (switchBranch env repo opts).2.1.refs (newBranchReferenceName opts.BranchName)
      = some h ∧
    (switchBranch env repo opts).2.2 =
      [Event.refStored (newBranchReferenceName opts.BranchName) h,
        Event.checkoutAttempted (newBranchReferenceName opts.BranchName) false] := by
  cases hco : env.checkoutErr with
  | some e =>
    exact ⟨by simp [switchBranch, hw, hcb, hset, hhit, hco, lookupRef],
      by simp [switchBranch, hw, hcb, hset, hhit, hco]⟩
  | none =>
    exact ⟨by simp [switchBranch, hw, hcb, hset, hhit, hco, lookupRef],
      by simp [switchBranch, hw, hcb, hset, hhit, hco]⟩

/-- Witness for C7: tracking `origin/main` at hash 5 pins
`refs/heads/main` to 5 and then checks it out. -/
theorem switchBranch_pins_remote_hash_check :
    lookupRef (switchBranch envOK repoClean
        { BranchName := "main", CreateBranch := false }).2.1.refs
      (newBranchReferenceName "main") = some 5 ∧
    (switchBranch envOK repoClean { BranchName := "main", CreateBranch := false }).2.2 =
      [Event.refStored (newBranchReferenceName "main") 5,
        Event.checkoutAttempted (newBranchReferenceName "main") false] :=
  switchBranch_pins_remote_hash envOK repoClean
    { BranchName := "main", CreateBranch := false } 5 rfl rfl rfl (by decide)

/-- Fixture: push options targeting branch `feature-x` without force. -/
def pushOptsEx : pushOptions where
  GitHubOpts := { config := "app-credentials" }
  BranchName := "feature-x"
  ForcePush := false

/-- Fixture: an environment whose token provider fails on its first call. -/
def envTokenFail : Env := { envOK with tokenQueue := [Except.error "denied"] }

/-- C8: `cloneGitRepository` and `pushChanges` each consume exactly one
fresh outcome of the token provider, the token each operation sends over
the network is the one fetched in that same operation (so sequential clone
and push use distinct provider calls and no token is reused), and a token
provider failure during `pushChanges` fails the push before any push is
attempted, leaving the local repository state untouched. -/
theorem token_fetch_per_remote_operation :
    (∀ env repo lp o r rest, env.tokenQueue = r :: rest →
      ((cloneGitRepository env repo lp o).2.1).tokenQueue = rest) ∧
    (∀ env repo opts r rest, env.worktreeErr = none → env.tokenQueue = r :: rest →
      ((pushChanges env repo opts).2.2.1).tokenQueue = rest) ∧
    (∀ env repo lp o t rest u rf p tok, env.tokenQueue = Except.ok t :: rest →
      Event.cloneAttempted u rf p tok ∈ (cloneGitRepository env repo lp o).2.2 → tok = t) ∧
    (∀ env repo opts t rest rs tok, env.tokenQueue = Except.ok t :: rest →
      Event.pushAttempted rs tok ∈ (pushChanges env repo opts).2.2.2 → tok = t) ∧
    (∀ env repo opts e rest, env.worktreeErr = none →
      env.tokenQueue = Except.error e :: rest →
      pushChanges env repo opts =
        (some (GitError.authError ("failed to create github client: " ++ e)), repo,
          { env with tokenQueue := rest }, [Event.tokenFetched])) := by
  refine ⟨?_, ?_, ?_, ?_, ?_⟩
  · intro env repo lp o r rest hq
    cases r with
    | error e => simp [cloneGitRepository, githubClient, hq]
    | ok t =>
      cases hc : env.cloneResult with
      | error e => simp [cloneGitRepository, githubClient, hq, hc]
      | ok r2 => simp [cloneGitRepository, githubClient, hq, hc]
  · intro env repo opts r rest hw hq
    cases r with
    | error e => simp [pushChanges, githubClient, hw, hq]
    | ok t =>
      cases hp : env.pushErr with
      | some e => simp [pushChanges, githubClient, hw, hq, hp]
      | none => simp [pushChanges, githubClient, hw, hq, hp]
  · intro env repo lp o t rest u rf p tok hq hm
    cases hc : env.cloneResult with
    | error e =>
      simp [cloneGitRepository, githubClient, hq, hc] at hm
      exact hm.2.2.2
    | ok r2 =>
      simp [cloneGitRepository, githubClient, hq, hc] at hm
      exact hm.2.2.2
  · intro env repo opts t rest rs tok hq hm
    cases hw : env.worktreeErr with
    | some e => simp [pushChanges, hw] at hm
    | none =>
      cases hp : env.pushErr with
      | some e =>
        simp [pushChanges, githubClient, hw, hq, hp] at hm
        exact hm.2
      | none =>
        simp [pushChanges, githubClient, hw, hq, hp] at hm
        exact hm.2
  · intro env repo opts e rest hw hq
    simp [pushChanges, githubClient, hw, hq]

/-- Witness for C8: a token provider failure makes `pushChanges` fail with
an auth error, with no push attempted and the repository state unchanged. -/
theorem token_fetch_per_remote_operation_check :
    pushChanges envTokenFail repoDirty pushOptsEx =
      (some (GitError.authError ("failed to create github client: " ++ "denied")),
        repoDirty, { envTokenFail with tokenQueue := [] }, [Event.tokenFetched]) :=
  token_fetch_per_remote_operation.2.2.2.2 envTokenFail repoDirty pushOptsEx "denied" []
    rfl rfl

/-- C10: whenever `commitChanges` returns an error its boolean result is
`false`; the boolean is `true` only on the path where a commit object was
created, and then the error is `nil`. -/
theorem commitChanges_bool_iff_commit (env : Env) (repo : RepoState) (o : UpdateOptions) :
    ((commitChanges env repo o).1.2 ≠ none → (commitChanges env repo o).1.1 = false) ∧
    ((commitChanges env repo o).1.1 = true →
      (commitChanges env repo o).1.2 = none ∧
      ∃ h, Event.commitCreated h ∈ (commitChanges env repo o).2.2) := by
  cases hw : env.worktreeErr with
  | some e => simp [commitChanges, hw]
  | none =>
    cases hs : env.statusErr with
    | some e => simp [commitChanges, hw, hs]
    | none =>
      cases hd : repo.dirty with
      | false => simp [commitChanges, hw, hs, hd]
      | true =>
        rcases hsl : stageLoop env o.Git.StagePatterns repo with ⟨err, r, tr⟩
        cases err with
        | some ge => simp [commitChanges, hw, hs, hd, hsl]
        | none =>
          cases hc : env.commitResult with
          | error e => simp [commitChanges, hw, hs, hd, hsl, hc]
          | ok h => simp [commitChanges, hw, hs, hd, hsl, hc]

/-- Witness for C10: a successful commit returns `true` with no error and a
commit object in the trace. -/
theorem commitChanges_bool_iff_commit_check :
    (commitChanges envOK repoDirty { Git := gitOptionsTBF }).1.2 = none ∧
    ∃ h, Event.commitCreated h ∈ (commitChanges envOK repoDirty { Git := gitOptionsTBF }).2.2 :=
  (commitChanges_bool_iff_commit envOK repoDirty { Git := gitOptionsTBF }).2 rfl

theorem stageLoop_error_shape (env : Env) :
    ∀ (pats : List String) (repo : RepoState) (ge : GitError),
    (stageLoop env pats repo).1 = some ge →
    ∃ p e, p ∈ pats ∧ env.stageResult p = Except.error e ∧
      ge = GitError.stageError ("failed to stage files using pattern " ++ p ++ ": " ++ e) := by
  intro pats
  induction pats with
  | nil => intro repo ge h; simp [stageLoop] at h
  | cons p rest ih =>
    intro repo ge h
    cases hsr : env.stageResult p with
    | error e =>
      simp [stageLoop, hsr] at h
      exact ⟨p, e, by simp, hsr, h.symm⟩
    | ok l =>
      rcases hrec : stageLoop env rest { repo with staged := repo.staged ++ l } with
        ⟨err2, r2, tr2⟩
      simp [stageLoop, hsr, hrec] at h
      have := ih { repo with staged := repo.staged ++ l } ge
      rw [hrec] at this
      obtain ⟨q, e, hq, hqe, hshape⟩ := this (by simp [h])
      exact ⟨q, e, by simp [hq], hqe, hshape⟩

/-- C9 (amended): every error returned by the pipeline operations is
wrapped with its operation name, and carries identifiers as the code
actually builds them: clone failures carry the URL and the local path;
reference-store and checkout failures carry the branch name; staging
failures carry the failing pattern (not the branch name); push failures
carry the branch and the repository names; token-provider failures carry
only the operation name; branch-resolution failures interpolate the nil
resolved reference rather than the branch name.  No error is swallowed:
each operation returns no error only when every underlying call it reached
succeeded. -/
theorem error_wrapping_amended :
    (∀ env repo lp o ge, (cloneGitRepository env repo lp o).1.2 = some ge →
      (∃ e, ge = GitError.authError ("failed to create github client: " ++ e)) ∨
      (∃ e, ge = GitError.cloneError
        ("failed to clone git repository from " ++ cloneUrl repo ++ " to " ++ lp
          ++ ": " ++ e))) ∧
    (∀ env repo lp o, (cloneGitRepository env repo lp o).1.2 = none →
      (∃ t rest, env.tokenQueue = Except.ok t :: rest) ∧
      (∃ r, env.cloneResult = Except.ok r)) ∧
    (∀ env repo opts ge, (switchBranch env repo opts).1 = some ge →
      (∃ e, ge = GitError.worktreeError ("failed to open worktree: " ++ e)) ∨
      ge = GitError.branchResolutionError
        ("failed to get the reference for " ++ nilReferenceString ++ ": "
          ++ referenceNotFoundMsg) ∨
      (∃ e, ge = GitError.refStoreError
        ("failed to store the reference for branch " ++ opts.BranchName ++ ": " ++ e)) ∨
      (∃ e, ge = GitError.checkoutError
        ("failed to checkout the branch " ++ opts.BranchName ++ ": " ++ e))) ∧
    (∀ env repo opts, (switchBranch env repo opts).1 = none →
      env.worktreeErr = none ∧ env.checkoutErr = none) ∧
    (∀ env repo o ge, (commitChanges env repo o).1.2 = some ge →
      (∃ e, ge = GitError.worktreeError ("failed to open worktree: " ++ e)) ∨
      (∃ e, ge = GitError.statusError ("failed to get the worktree status: " ++ e)) ∨
      (∃ p e, p ∈ o.Git.StagePatterns ∧ env.stageResult p = Except.error e ∧
        ge = GitError.stageError ("failed to stage files using pattern " ++ p ++ ": " ++ e)) ∨
      (∃ e, ge = GitError.commitError ("failed to commit: " ++ e))) ∧
    (∀ env repo o, (commitChanges env repo o).1.2 = none →
      env.worktreeErr = none ∧ env.statusErr = none ∧
      (repo.dirty = true → ∃ h, env.commitResult = Except.ok h)) ∧
    (∀ env repo opts ge, (pushChanges env repo opts).1 = some ge →
      (∃ e, ge = GitError.worktreeError ("failed to open worktree: " ++ e)) ∨
      (∃ e, ge = GitError.authError ("failed to create github client: " ++ e)) ∨
      (∃ e, ge = GitError.pushError
        ("failed to push branch " ++ opts.BranchName ++ " to "
          ++ filepathBase repo.rootPath ++ ": " ++ e))) ∧
    (∀ env repo opts, (pushChanges env repo opts).1 = none →
      env.worktreeErr = none ∧ env.pushErr = none ∧
      ∃ t rest, env.tokenQueue = Except.ok t :: rest) := by
  refine ⟨?_, ?_, ?_, ?_, ?_, ?_, ?_, ?_⟩
  · intro env repo lp o ge hge
    cases hq : env.tokenQueue with
    | nil =>
      simp [cloneGitRepository, githubClient, hq] at hge
      exact Or.inl ⟨"token provider exhausted", hge.symm⟩
    | cons t rest =>
      cases t with
      | error e =>
        simp [cloneGitRepository, githubClient, hq] at hge
        exact Or.inl ⟨e, hge.symm⟩
      | ok tk =>
        cases hc : env.cloneResult with
        | error e =>
          simp [cloneGitRepository, githubClient, hq, hc] at hge
          exact Or.inr ⟨e, hge.symm⟩
        | ok r2 => simp [cloneGitRepository, githubClient, hq, hc] at hge
  · intro env repo lp o hok
    cases hq : env.tokenQueue with
    | nil => simp [cloneGitRepository, githubClient, hq] at hok
    | cons t rest =>
      cases t with
      | error e => simp [cloneGitRepository, githubClient, hq] at hok
      | ok tk =>
        cases hc : env.cloneResult with
        | error e => simp [cloneGitRepository, githubClient, hq, hc] at hok
        | ok r2 => exact ⟨⟨tk, rest, rfl⟩, ⟨r2, rfl⟩⟩
  · intro env repo opts ge hge
    cases hw : env.worktreeErr with
    | some e =>
      simp [switchBranch, hw] at hge
      exact Or.inl ⟨e, hge.symm⟩
    | none =>
      cases hcb : opts.CreateBranch with
      | true =>
        cases hco : env.checkoutErr with
        | some e =>
          simp [switchBranch, hw, hcb, hco] at hge
          exact Or.inr (Or.inr (Or.inr ⟨e, hge.symm⟩))
        | none => simp [switchBranch, hw, hcb, hco] at hge
      | false =>
        cases hlk : lookupRef repo.refs (newRemoteReferenceName "origin" opts.BranchName) with
        | none =>
          simp [switchBranch, hw, hcb, hlk] at hge
          exact Or.inr (Or.inl hge.symm)
        | some h =>
          cases hset : env.setRefErr with
          | some e =>
            simp [switchBranch, hw, hcb, hlk, hset] at hge
            exact Or.inr (Or.inr (Or.inl ⟨e, hge.symm⟩))
          | none =>
            cases hco : env.checkoutErr with
            | some e =>
              simp [switchBranch, hw, hcb, hlk, hset, hco] at hge
              exact Or.inr (Or.inr (Or.inr ⟨e, hge.symm⟩))
            | none => simp [switchBranch, hw, hcb, hlk, hset, hco] at hge
  · intro env repo opts hok
    cases hw : env.worktreeErr with
    | some e => simp [switchBranch, hw] at hok
    | none =>
      refine ⟨rfl, ?_⟩
      cases hcb : opts.CreateBranch with
      | true =>
        cases hco : env.checkoutErr with
        | some e => simp [switchBranch, hw, hcb, hco] at hok
        | none => rfl
      | false =>
        cases hlk : lookupRef repo.refs (newRemoteReferenceName "origin" opts.BranchName) with
        | none => simp [switchBranch, hw, hcb, hlk] at hok
        | some h =>
          cases hset : env.setRefErr with
          | some e => simp [switchBranch, hw, hcb, hlk, hset] at hok
          | none =>
            cases hco : env.checkoutErr with
            | some e => simp [switchBranch, hw, hcb, hlk, hset, hco] at hok
            | none => rfl
  · intro env repo o ge hge
    cases hw : env.worktreeErr with
    | some e =>
      simp [commitChanges, hw] at hge
      exact Or.inl ⟨e, hge.symm⟩
    | none =>
      cases hs : env.statusErr with
      | some e =>
        simp [commitChanges, hw, hs] at hge
        exact Or.inr (Or.inl ⟨e, hge.symm⟩)
      | none =>
        cases hd : repo.dirty with
        | false => simp [commitChanges, hw, hs, hd] at hge
        | true =>
          rcases hsl : stageLoop env o.Git.StagePatterns repo with ⟨err, r, tr⟩
          cases err with
          | some ge2 =>
            simp [commitChanges, hw, hs, hd, hsl] at hge
            have hfst : (stageLoop env o.Git.StagePatterns repo).1 = some ge2 := by
              rw [hsl]
            obtain ⟨p, e, hp, hpe, hshape⟩ :=
              stageLoop_error_shape env o.Git.StagePatterns repo ge2 hfst
            exact Or.inr (Or.inr (Or.inl ⟨p, e, hp, hpe, by rw [← hge, hshape]⟩))
          | none =>
            cases hc : env.commitResult with
            | error e =>
              simp [commitChanges, hw, hs, hd, hsl, hc] at hge
              exact Or.inr (Or.inr (Or.inr ⟨e, hge.symm⟩))
            | ok h => simp [commitChanges, hw, hs, hd, hsl, hc] at hge
  · intro env repo o hok
    cases hw : env.worktreeErr with
    | some e => simp [commitChanges, hw] at hok
    | none =>
      cases hs : env.statusErr with
      | some e => simp [commitChanges, hw, hs] at hok
      | none =>
        refine ⟨rfl, rfl, ?_⟩
        intro hd
        rcases hsl : stageLoop env o.Git.StagePatterns repo with ⟨err, r, tr⟩
        cases err with
        | some ge2 => simp [commitChanges, hw, hs, hd, hsl] at hok
        | none =>
          cases hc : env.commitResult with
          | error e => simp [commitChanges, hw, hs, hd, hsl, hc] at hok
          | ok h => exact ⟨h, rfl⟩
  · intro env repo opts ge hge
    cases hw : env.worktreeErr with
    | some e =>
      simp [pushChanges, hw] at hge
      exact Or.inl ⟨e, hge.symm⟩
    | none =>
      cases hq : env.tokenQueue with
      | nil =>
        simp [pushChanges, githubClient, hw, hq] at hge
        exact Or.inr (Or.inl ⟨"token provider exhausted", hge.symm⟩)
      | cons t rest =>
        cases t with
        | error e =>
          simp [pushChanges, githubClient, hw, hq] at hge
          exact Or.inr (Or.inl ⟨e, hge.symm⟩)
        | ok tk =>
          cases hp : env.pushErr with
          | some e =>
            simp [pushChanges, githubClient, hw, hq, hp] at hge
            exact Or.inr (Or.inr ⟨e, hge.symm⟩)
          | none => simp [pushChanges, githubClient, hw, hq, hp] at hge
  · intro env repo opts hok
    cases hw : env.worktreeErr with
    | some e => simp [pushChanges, hw] at hok
    | none =>
      cases hq : env.tokenQueue with
      | nil => simp [pushChanges, githubClient, hw, hq] at hok
      | cons t rest =>
        cases t with
        | error e => simp [pushChanges, githubClient, hw, hq] at hok
        | ok tk =>
          cases hp : env.pushErr with
          | some e => simp [pushChanges, githubClient, hw, hq, hp] at hok
          | none => exact ⟨rfl, rfl, tk, rest, rfl⟩

/-- Whether the character sequence `needle` occurs contiguously inside
`haystack`. -/
def listIsInfixOf (needle : List Char) : List Char → Bool
  | [] => needle.isEmpty
  | h :: rest => needle.isPrefixOf (h :: rest) || listIsInfixOf needle rest

/-- Counterexample for C9 as stated: at branch `feature-x`, the
branch-resolution failure message interpolates the nil reference rendering
and does not contain the branch name, and a staging failure message names
the failing pattern, not the branch name. -/
theorem error_wrapping_counterexample :
    (switchBranch envOK repoClean { BranchName := "feature-x", CreateBranch := false }).1 =
      some (GitError.branchResolutionError
        ("failed to get the reference for " ++ nilReferenceString ++ ": "
          ++ referenceNotFoundMsg)) ∧
    listIsInfixOf "feature-x".data ("failed to get the reference for " ++ nilReferenceString
        ++ ": " ++ referenceNotFoundMsg).data = false ∧
    (commitChanges envStageFail repoDirty { Git := gitOptionsStage }).1.2 =
      some (GitError.stageError ("failed to stage files using pattern " ++ "[" ++ ": "
        ++ "bad pattern")) ∧
    listIsInfixOf "feature-x".data ("failed to stage files using pattern " ++ "[" ++ ": "
        ++ "bad pattern").data = false := by
  refine ⟨rfl, by decide, rfl, by decide⟩

/-- Fixture: an environment whose push is rejected by the remote. -/
def envPushFail : Env := { envOK with pushErr := some "diverged" }

/-- Fixture: the error `pushChanges` returns in `envPushFail`. -/
def gePushEx : GitError :=
  GitError.pushError "failed to push branch feature-x to my-repo: diverged"

/-- Witness for the amended C9: a concrete push rejection is wrapped with
the operation name, the branch name and the repository name. -/
theorem error_wrapping_amended_check :
    (∃ e, gePushEx = GitError.worktreeError ("failed to open worktree: " ++ e)) ∨
    (∃ e, gePushEx = GitError.authError ("failed to create github client: " ++ e)) ∨
    (∃ e, gePushEx = GitError.pushError
      ("failed to push branch " ++ pushOptsEx.BranchName ++ " to "
        ++ filepathBase repoDirty.rootPath ++ ": " ++ e)) :=
  error_wrapping_amended.2.2.2.2.2.2.1 envPushFail repoDirty pushOptsEx gePushEx rfl
